import Mathlib

/-!
Verification of the option-analytics core (pricing, strategies, screening,
risk management, wheel-state persistence) of the `optionpick` repository.

The Python floats are modelled as real numbers (`ℝ`) where transcendental
functions (`log`, `exp`, `sqrt`, the normal CDF/PDF) are involved, and as
rationals (`ℚ`) for the purely arithmetic screening / risk-management code.
`scipy.stats.norm.cdf` and `norm.pdf` are external library functions; they are
modelled as function parameters constrained by the interface `IsNormalCdf`
(respectively a pointwise nonnegativity hypothesis for the density), and a
concrete function `cdfModel` satisfying that interface is supplied so that all
statements can be instantiated on closed inputs.
-/

/-- Option side: the `option_type` string argument (`'call'` / `'put'`) of the
Python code, which is only ever compared against `'call'`. -/
inductive OptionSide where
  | call
  | put
deriving DecidableEq, Repr

/-- Interface satisfied by the standard normal CDF: values strictly between
0 and 1, strictly increasing, and symmetric around 0. -/
structure IsNormalCdf (Φ : ℝ → ℝ) : Prop where
  pos : ∀ x, 0 < Φ x
  lt_one : ∀ x, Φ x < 1
  mono : StrictMono Φ
  compl : ∀ x, Φ (-x) = 1 - Φ x

theorem IsNormalCdf.cdf_zero {Φ : ℝ → ℝ} (h : IsNormalCdf Φ) : Φ 0 = 1 / 2 := by
  have h0 := h.compl 0
  rw [neg_zero] at h0
  linarith

theorem IsNormalCdf.clamp {Φ : ℝ → ℝ} (h : IsNormalCdf Φ) (x : ℝ) :
    max 0 (min 1 (Φ x)) = Φ x := by
  rw [min_eq_right (le_of_lt (h.lt_one x)), max_eq_right (le_of_lt (h.pos x))]

theorem IsNormalCdf.clamp_one_sub {Φ : ℝ → ℝ} (h : IsNormalCdf Φ) (x : ℝ) :
    max 0 (min 1 (1 - Φ x)) = 1 - Φ x := by
  have h1 := h.pos x
  have h2 := h.lt_one x
  rw [min_eq_right (by linarith), max_eq_right (by linarith)]

/-- Concrete sigmoid satisfying the `IsNormalCdf` interface, used to
instantiate the parametric theorems on closed inputs. -/
noncomputable def cdfModel (x : ℝ) : ℝ := 1 / 2 + x / (2 * (1 + |x|))

theorem cdfModel_eq (x : ℝ) : cdfModel x = (1 + |x| + x) / (2 * (1 + |x|)) := by
  unfold cdfModel
  have h : (1 + |x| : ℝ) ≠ 0 := by positivity
  field_simp

theorem cdfModel_pos (x : ℝ) : 0 < cdfModel x := by
  rw [cdfModel_eq]
  have h1 : (0:ℝ) < 1 + |x| + x := by
    have := neg_abs_le x
    linarith
  have h2 : (0:ℝ) < 2 * (1 + |x|) := by positivity
  exact div_pos h1 h2

theorem cdfModel_lt_one (x : ℝ) : cdfModel x < 1 := by
  rw [cdfModel_eq]
  have h2 : (0:ℝ) < 2 * (1 + |x|) := by positivity
  rw [div_lt_one h2]
  have := le_abs_self x
  linarith

theorem cdfModel_strictMono : StrictMono cdfModel := by
  intro x y hxy
  have hx : (0:ℝ) < 2 * (1 + |x|) := by positivity
  have hy : (0:ℝ) < 2 * (1 + |y|) := by positivity
  have key : x * (1 + |y|) < y * (1 + |x|) := by
    rcases le_or_lt 0 x with hx0 | hx0
    · have hy0 : 0 < y := lt_of_le_of_lt hx0 hxy
      rw [abs_of_nonneg hx0, abs_of_pos hy0]
      nlinarith
    · rcases le_or_lt y 0 with hy0 | hy0
      · rw [abs_of_neg hx0, abs_of_nonpos hy0]
        nlinarith
      · have h1 : x * (1 + |y|) < 0 := mul_neg_of_neg_of_pos hx0 (by positivity)
        have h2 : 0 < y * (1 + |x|) := mul_pos hy0 (by positivity)
        linarith
  unfold cdfModel
  have hdiv : x / (2 * (1 + |x|)) < y / (2 * (1 + |y|)) := by
    rw [div_lt_div_iff₀ hx hy]
    nlinarith
  linarith

theorem cdfModel_compl (x : ℝ) : cdfModel (-x) = 1 - cdfModel x := by
  unfold cdfModel
  rw [abs_neg]
  have h : (1 + |x| : ℝ) ≠ 0 := by positivity
  field_simp
  ring

theorem cdfModel_isNormalCdf : IsNormalCdf cdfModel :=
  ⟨cdfModel_pos, cdfModel_lt_one, cdfModel_strictMono, cdfModel_compl⟩

theorem cdfModel_zero : cdfModel 0 = 1 / 2 := by
  unfold cdfModel
  norm_num

/-- Concrete nonnegative stand-in for the normal density `norm.pdf`. -/
noncomputable def pdfModel (x : ℝ) : ℝ := 1 / (1 + x ^ 2)

theorem pdfModel_nonneg (x : ℝ) : 0 ≤ pdfModel x := by
  unfold pdfModel
  positivity

/-! ## `BlackScholesCalculator` (src/option_analytics/pricing.py) -/

/-- `BlackScholesCalculator.calculate_d1_d2`: returns `(0, 0)` when `T ≤ 0`
or `sigma ≤ 0`, otherwise the standard `(d1, d2)` pair. -/
noncomputable def calculate_d1_d2 (S K T r σ : ℝ) : ℝ × ℝ :=
  if T ≤ 0 ∨ σ ≤ 0 then (0, 0)
  else
    let d1 := (Real.log (S / K) + (r + σ ^ 2 / 2) * T) / (σ * Real.sqrt T)
    (d1, d1 - σ * Real.sqrt T)

/-- `BlackScholesCalculator.option_price`, with `scipy.stats.norm.cdf`
abstracted as the parameter `Φ`. -/
noncomputable def option_price (Φ : ℝ → ℝ) (S K T r σ : ℝ) (side : OptionSide) : ℝ :=
  if T ≤ 0 then
    match side with
    | .call => max (S - K) 0
    | .put => max (K - S) 0
  else
    let d := calculate_d1_d2 S K T r σ
    let price :=
      match side with
      | .call => S * Φ d.1 - K * Real.exp (-r * T) * Φ d.2
      | .put => K * Real.exp (-r * T) * Φ (-d.2) - S * Φ (-d.1)
    max price 0

/-- The Greeks record returned by `BlackScholesCalculator.calculate_greeks`. -/
structure Greeks where
  delta : ℝ
  gamma : ℝ
  theta : ℝ
  vega : ℝ
  rho : ℝ

/-- `BlackScholesCalculator.calculate_greeks`, with the normal CDF `Φ` and
density `φ` abstracted as parameters. -/
noncomputable def calculate_greeks (Φ φ : ℝ → ℝ) (S K T r σ : ℝ) (side : OptionSide) : Greeks :=
  if T ≤ 0 then
    { delta := if side = .call ∧ S > K then 1 else 0
      gamma := 0
      theta := 0
      vega := 0
      rho := 0 }
  else
    let d := calculate_d1_d2 S K T r σ
    let sqrtT := Real.sqrt T
    let thetaPart1 := -(S * φ d.1 * σ) / (2 * sqrtT)
    { delta :=
        match side with
        | .call => Φ d.1
        | .put => -(Φ (-d.1))
      gamma := φ d.1 / (S * σ * sqrtT)
      theta :=
        match side with
        | .call => (thetaPart1 + -(r * K * Real.exp (-r * T) * Φ d.2)) / 365
        | .put => (thetaPart1 + r * K * Real.exp (-r * T) * Φ (-d.2)) / 365
      vega := S * φ d.1 * sqrtT / 100
      rho :=
        match side with
        | .call => K * T * Real.exp (-r * T) * Φ d.2 / 100
        | .put => -(K * T * Real.exp (-r * T) * Φ (-d.2)) / 100 }

/-! ## `ProbabilityCalculator` (src/option_analytics/pricing.py) -/

/-- `ProbabilityCalculator.prob_profit_short_option`. The Python `try` block
only catches float exceptions on degenerate inputs (zero breakeven or
`σ√T = 0`); on the positive domain used by every claim the formula below is
exactly the source computation. -/
noncomputable def prob_profit_short_option (Φ : ℝ → ℝ) (S K premium T σ : ℝ)
    (side : OptionSide) : ℝ :=
  match side with
  | .call =>
    let breakeven := K + premium
    let d := (Real.log (S / breakeven) + (0 - σ ^ 2 / 2) * T) / (σ * Real.sqrt T)
    max 0 (min 1 (Φ d))
  | .put =>
    let breakeven := K - premium
    let d := (Real.log (S / breakeven) + (0 - σ ^ 2 / 2) * T) / (σ * Real.sqrt T)
    max 0 (min 1 (1 - Φ d))

/-- `ProbabilityCalculator.prob_expire_worthless`. -/
noncomputable def prob_expire_worthless (Φ : ℝ → ℝ) (S K T σ : ℝ)
    (side : OptionSide) : ℝ :=
  match side with
  | .call =>
    let d := (Real.log (S / K) + (0 - σ ^ 2 / 2) * T) / (σ * Real.sqrt T)
    max 0 (min 1 (Φ d))
  | .put =>
    let d := (Real.log (S / K) + (0 - σ ^ 2 / 2) * T) / (σ * Real.sqrt T)
    max 0 (min 1 (1 - Φ d))

/-- `ProbabilityCalculator.expected_move`: the one-standard-deviation band. -/
noncomputable def expected_move (S T σ : ℝ) : ℝ × ℝ :=
  (S - S * σ * Real.sqrt T, S + S * σ * Real.sqrt T)

/-! ## Claims about the pricer and the probability model -/

/-- Claim C1 (amended): for S>0, K>0 the pricer returns the intrinsic value
exactly when `T ≤ 0`; when `σ ≤ 0` but `T > 0` it instead falls into the
Black-Scholes branch with `d1 = d2 = 0` and returns
`max((S − K·e^{−rT})/2, 0)` for a call (resp. `max((K·e^{−rT} − S)/2, 0)`
for a put), which is not the intrinsic value in general. -/
theorem c1_option_price_degenerate (Φ : ℝ → ℝ) (h : IsNormalCdf Φ) (S K T r σ : ℝ)
    (hS : 0 < S) (hK : 0 < K) :
    (T ≤ 0 →
      option_price Φ S K T r σ .call = max (S - K) 0 ∧
      option_price Φ S K T r σ .put = max (K - S) 0) ∧
    (0 < T → σ ≤ 0 →
      option_price Φ S K T r σ .call = max ((S - K * Real.exp (-r * T)) / 2) 0 ∧
      option_price Φ S K T r σ .put = max ((K * Real.exp (-r * T) - S) / 2) 0) := by
  constructor
  · intro hT
    constructor <;> simp [option_price, hT]
  · intro hT hσ
    have hnT : ¬ T ≤ 0 := not_le.mpr hT
    have hd : calculate_d1_d2 S K T r σ = (0, 0) := by
      simp [calculate_d1_d2, hσ]
    constructor
    · simp only [option_price, if_neg hnT, hd]
      have e : S * Φ 0 - K * Real.exp (-r * T) * Φ 0 = (S - K * Real.exp (-r * T)) / 2 := by
        rw [h.cdf_zero]; ring
      simpa using congrArg (fun z => max z 0) e
    · simp only [option_price, if_neg hnT, hd]
      have e : K * Real.exp (-r * T) * Φ (-0) - S * Φ (-0) =
          (K * Real.exp (-r * T) - S) / 2 := by
        rw [neg_zero, h.cdf_zero]; ring
      simpa using congrArg (fun z => max z 0) e

/-- Claim C1, counterexample: at S=2, K=1, T=1, r=0, σ=0 the pricer returns
1/2, not the intrinsic value `max(S−K,0) = 1`. -/
theorem c1_counterexample :
    option_price cdfModel 2 1 1 0 0 .call ≠ max (2 - 1 : ℝ) 0 := by
  have hd : calculate_d1_d2 2 1 1 0 0 = (0, 0) := by
    simp [calculate_d1_d2]
  simp only [option_price, hd]
  rw [if_neg (by norm_num : ¬ (1:ℝ) ≤ 0)]
  rw [cdfModel_zero]
  norm_num [Real.exp_zero]

/-- Claim C1, witness for the amended theorem at concrete inputs. -/
theorem c1_witness :
    option_price cdfModel 3 2 0 0 1 .call = max (3 - 2 : ℝ) 0 ∧
    option_price cdfModel 1 2 1 0 0 .put = max ((2 * Real.exp (-0 * 1) - 1) / 2) 0 :=
  ⟨((c1_option_price_degenerate cdfModel cdfModel_isNormalCdf 3 2 0 0 1 (by norm_num)
      (by norm_num)).1 (by norm_num)).1,
   ((c1_option_price_degenerate cdfModel cdfModel_isNormalCdf 1 2 1 0 0 (by norm_num)
      (by norm_num)).2 (by norm_num) (by norm_num)).2⟩

/-- Claim C2: the code's short-option profit probability is strictly
DECREASING in the breakeven, for calls (breakeven `K + premium` rising above
spot) as well as for puts (breakeven `K − premium` falling below spot): the
sign of `d` makes `prob` the probability of finishing beyond the breakeven,
contradicting the inline comment and the spec. -/
theorem c2_prob_profit_short_decreasing (Φ : ℝ → ℝ) (h : IsNormalCdf Φ)
    (S K T σ p₁ p₂ : ℝ) (hS : 0 < S) (hT : 0 < T) (hσ : 0 < σ) (hp : p₁ < p₂) :
    (0 < K + p₁ →
      prob_profit_short_option Φ S K p₂ T σ .call <
        prob_profit_short_option Φ S K p₁ T σ .call) ∧
    (0 < K - p₂ →
      prob_profit_short_option Φ S K p₂ T σ .put <
        prob_profit_short_option Φ S K p₁ T σ .put) := by
  have hden : 0 < σ * Real.sqrt T := mul_pos hσ (Real.sqrt_pos.mpr hT)
  constructor
  · intro hB1
    have hB2 : 0 < K + p₂ := by linarith
    have hfrac : S / (K + p₂) < S / (K + p₁) :=
      (div_lt_div_left hS hB2 hB1).mpr (by linarith)
    have hlog : Real.log (S / (K + p₂)) < Real.log (S / (K + p₁)) :=
      Real.log_lt_log (div_pos hS hB2) hfrac
    have hd : (Real.log (S / (K + p₂)) + (0 - σ ^ 2 / 2) * T) / (σ * Real.sqrt T) <
        (Real.log (S / (K + p₁)) + (0 - σ ^ 2 / 2) * T) / (σ * Real.sqrt T) :=
      (div_lt_div_right hden).mpr (by linarith)
    simp only [prob_profit_short_option]
    rw [h.clamp, h.clamp]
    exact h.mono hd
  · intro hB2
    have hB1 : 0 < K - p₁ := by linarith
    have hfrac : S / (K - p₁) < S / (K - p₂) :=
      (div_lt_div_left hS hB1 hB2).mpr (by linarith)
    have hlog : Real.log (S / (K - p₁)) < Real.log (S / (K - p₂)) :=
      Real.log_lt_log (div_pos hS hB1) hfrac
    have hd : (Real.log (S / (K - p₁)) + (0 - σ ^ 2 / 2) * T) / (σ * Real.sqrt T) <
        (Real.log (S / (K - p₂)) + (0 - σ ^ 2 / 2) * T) / (σ * Real.sqrt T) :=
      (div_lt_div_right hden).mpr (by linarith)
    simp only [prob_profit_short_option]
    rw [h.clamp_one_sub, h.clamp_one_sub]
    have := h.mono hd
    linarith

/-- Claim C2, witness: the strict decrease at concrete inputs. -/
theorem c2_witness :
    prob_profit_short_option cdfModel 1 1 2 1 1 .call <
      prob_profit_short_option cdfModel 1 1 1 1 1 .call ∧
    prob_profit_short_option cdfModel 1 1 (1/2) 1 1 .put <
      prob_profit_short_option cdfModel 1 1 (1/4) 1 1 .put :=
  ⟨(c2_prob_profit_short_decreasing cdfModel cdfModel_isNormalCdf 1 1 1 1 1 2 (by norm_num)
      (by norm_num) (by norm_num) (by norm_num)).1 (by norm_num),
   (c2_prob_profit_short_decreasing cdfModel cdfModel_isNormalCdf 1 1 1 1 (1/4) (1/2)
      (by norm_num) (by norm_num) (by norm_num) (by norm_num)).2 (by norm_num)⟩

/-- Claim C8: for valid inputs (S>0, K>0, T>0, σ>0) the call delta lies in
[0,1], the put delta lies in [−1,0], and gamma is nonnegative. -/
theorem c8_delta_gamma_bounds (Φ φ : ℝ → ℝ) (h : IsNormalCdf Φ) (hφ : ∀ x, 0 ≤ φ x)
    (S K T r σ : ℝ) (hS : 0 < S) (hK : 0 < K) (hT : 0 < T) (hσ : 0 < σ) :
    0 ≤ (calculate_greeks Φ φ S K T r σ .call).delta ∧
    (calculate_greeks Φ φ S K T r σ .call).delta ≤ 1 ∧
    -1 ≤ (calculate_greeks Φ φ S K T r σ .put).delta ∧
    (calculate_greeks Φ φ S K T r σ .put).delta ≤ 0 ∧
    0 ≤ (calculate_greeks Φ φ S K T r σ .call).gamma ∧
    0 ≤ (calculate_greeks Φ φ S K T r σ .put).gamma := by
  have hnT : ¬ T ≤ 0 := not_le.mpr hT
  have hden : 0 < S * σ * Real.sqrt T := mul_pos (mul_pos hS hσ) (Real.sqrt_pos.mpr hT)
  simp only [calculate_greeks, if_neg hnT]
  refine ⟨(h.pos _).le, (h.lt_one _).le, ?_, ?_, ?_, ?_⟩
  · have := h.lt_one (-(calculate_d1_d2 S K T r σ).1)
    linarith
  · have := h.pos (-(calculate_d1_d2 S K T r σ).1)
    linarith
  · exact div_nonneg (hφ _) hden.le
  · exact div_nonneg (hφ _) hden.le

/-- Claim C8, witness at concrete inputs. -/
theorem c8_witness :
    0 ≤ (calculate_greeks cdfModel pdfModel 1 1 1 0 1 .call).delta ∧
    (calculate_greeks cdfModel pdfModel 1 1 1 0 1 .call).delta ≤ 1 ∧
    -1 ≤ (calculate_greeks cdfModel pdfModel 1 1 1 0 1 .put).delta ∧
    (calculate_greeks cdfModel pdfModel 1 1 1 0 1 .put).delta ≤ 0 ∧
    0 ≤ (calculate_greeks cdfModel pdfModel 1 1 1 0 1 .call).gamma ∧
    0 ≤ (calculate_greeks cdfModel pdfModel 1 1 1 0 1 .put).gamma :=
  c8_delta_gamma_bounds cdfModel pdfModel cdfModel_isNormalCdf pdfModel_nonneg 1 1 1 0 1
    (by norm_num) (by norm_num) (by norm_num) (by norm_num)

/-- Claim C10: at the same (S,K,T,σ), the call and put expire-worthless
probabilities are exact complements (they sum to 1), and the `[0,1]` clamps
are no-ops: each value is the CDF value `Φ(d)` resp. its complement. -/
theorem c10_prob_expire_worthless_complement (Φ : ℝ → ℝ) (h : IsNormalCdf Φ)
    (S K T σ : ℝ) (hS : 0 < S) (hK : 0 < K) (hT : 0 < T) (hσ : 0 < σ) :
    prob_expire_worthless Φ S K T σ .call + prob_expire_worthless Φ S K T σ .put = 1 ∧
    prob_expire_worthless Φ S K T σ .call =
      Φ ((Real.log (S / K) + (0 - σ ^ 2 / 2) * T) / (σ * Real.sqrt T)) ∧
    prob_expire_worthless Φ S K T σ .put =
      1 - Φ ((Real.log (S / K) + (0 - σ ^ 2 / 2) * T) / (σ * Real.sqrt T)) := by
  simp only [prob_expire_worthless]
  rw [h.clamp, h.clamp_one_sub]
  exact ⟨by ring, rfl, rfl⟩

/-- Claim C10, witness at concrete inputs. -/
theorem c10_witness :
    prob_expire_worthless cdfModel 1 1 1 1 .call +
      prob_expire_worthless cdfModel 1 1 1 1 .put = 1 :=
  (c10_prob_expire_worthless_complement cdfModel cdfModel_isNormalCdf 1 1 1 1
    (by norm_num) (by norm_num) (by norm_num) (by norm_num)).1

/-! ## `OptionAnalyzer.analyze_option` (src/option_analytics/pricing.py) and
the spread strategies (src/option_analytics/strategies.py) -/

/-- One raw option quote, the `option_data` dict consumed by
`OptionAnalyzer.analyze_option` (keys `strike`, `lastPrice`, `bid`, `ask`,
`impliedVolatility`, `volume`, `openInterest`, `type`). -/
structure OptionContract where
  strike : ℝ
  lastPrice : ℝ
  bid : ℝ
  ask : ℝ
  impliedVolatility : ℝ
  volume : ℝ
  openInterest : ℝ
  side : OptionSide

/-- The mid price: `(bid+ask)/2 if bid > 0 and ask > 0 else market_price`. -/
noncomputable def midPriceOf (od : OptionContract) : ℝ :=
  if 0 < od.bid ∧ 0 < od.ask then (od.bid + od.ask) / 2 else od.lastPrice

/-- The `basic_info` sub-dict of an analysis. -/
structure BasicInfo where
  strike : ℝ
  daysToExpiry : ℕ
  marketPrice : ℝ
  bid : ℝ
  ask : ℝ
  midPrice : ℝ
  volume : ℝ
  openInterest : ℝ
  impliedVolatility : ℝ

/-- The `pricing` sub-dict of an analysis. -/
structure PricingInfo where
  theoreticalPrice : ℝ
  intrinsicValue : ℝ
  timeValue : ℝ
  moneyness : ℝ

/-- The `probabilities` sub-dict of an analysis. -/
structure ProbabilityInfo where
  probProfitShort : ℝ
  probExpireWorthless : ℝ
  expectedMoveDown : ℝ
  expectedMoveUp : ℝ

/-- The `returns` sub-dict of an analysis; `maxLoss = none` models the float
`inf` reported for a naked call. -/
structure ReturnsInfo where
  maxProfit : ℝ
  maxLoss : Option ℝ
  breakeven : ℝ
  annualizedReturn : ℝ

/-- The `liquidity` sub-dict of an analysis. -/
structure LiquidityInfo where
  bidAskSpread : ℝ
  bidAskSpreadPct : ℝ
  volume : ℝ
  openInterest : ℝ

/-- The analysis record returned by `OptionAnalyzer.analyze_option`. -/
structure OptionAnalysis where
  basicInfo : BasicInfo
  pricing : PricingInfo
  greeks : Greeks
  probabilities : ProbabilityInfo
  returns : ReturnsInfo
  liquidity : LiquidityInfo

/-- `OptionAnalyzer.analyze_option`. The result is `none` exactly when the
Python body raises (and its `except` clause returns `{}`): the only uncaught
exceptions for numeric inputs are the bare float divisions computing
`moneyness` (`S/strike` for a call, `strike/S` for a put) and the
annualized-return factor `mid/strike * 365/days` (reached when `mid > 0`). -/
noncomputable def analyze_option (Φ φ : ℝ → ℝ) (riskFreeRate : ℝ) (od : OptionContract)
    (stockPrice : ℝ) (daysToExpiry : ℕ) : Option OptionAnalysis :=
  let midPrice := midPriceOf od
  if (od.side = .call ∧ od.strike = 0) ∨ (od.side = .put ∧ stockPrice = 0) ∨
      (0 < midPrice ∧ (daysToExpiry = 0 ∨ od.strike = 0)) then none
  else
    let T := (daysToExpiry : ℝ) / 365
    let iv := od.impliedVolatility
    let theoreticalPrice := option_price Φ stockPrice od.strike T riskFreeRate iv od.side
    let greeks := calculate_greeks Φ φ stockPrice od.strike T riskFreeRate iv od.side
    let probProfit := prob_profit_short_option Φ stockPrice od.strike midPrice T iv od.side
    let pew := prob_expire_worthless Φ stockPrice od.strike T iv od.side
    let em := expected_move stockPrice T iv
    let intrinsic :=
      max 0 (match od.side with
             | .call => stockPrice - od.strike
             | .put => od.strike - stockPrice)
    let moneyness :=
      match od.side with
      | .call => stockPrice / od.strike
      | .put => od.strike / stockPrice
    let annualizedReturn :=
      if 0 < midPrice then midPrice / od.strike * (365 / (daysToExpiry : ℝ)) * 100 else 0
    some
      { basicInfo :=
          { strike := od.strike
            daysToExpiry := daysToExpiry
            marketPrice := od.lastPrice
            bid := od.bid
            ask := od.ask
            midPrice := midPrice
            volume := od.volume
            openInterest := od.openInterest
            impliedVolatility := iv * 100 }
        pricing :=
          { theoreticalPrice := theoreticalPrice
            intrinsicValue := intrinsic
            timeValue := midPrice - intrinsic
            moneyness := moneyness }
        greeks := greeks
        probabilities :=
          { probProfitShort := probProfit * 100
            probExpireWorthless := pew * 100
            expectedMoveDown := em.1
            expectedMoveUp := em.2 }
        returns :=
          { maxProfit := midPrice
            maxLoss :=
              match od.side with
              | .call => none
              | .put => some (od.strike - midPrice)
            breakeven :=
              match od.side with
              | .call => od.strike + midPrice
              | .put => od.strike - midPrice
            annualizedReturn := annualizedReturn }
        liquidity :=
          { bidAskSpread := if od.bid < od.ask then od.ask - od.bid else 0
            bidAskSpreadPct := if 0 < midPrice then (od.ask - od.bid) / midPrice * 100 else 0
            volume := od.volume
            openInterest := od.openInterest } }

/-- The record returned by `analyze_bull_put_spread` /
`analyze_bear_call_spread` in `StrategyAnalyzer` (strategies.py). -/
structure SpreadAnalysis where
  stockPrice : ℝ
  strike : ℝ
  shortStrike : ℝ
  longStrike : ℝ
  premium : ℝ
  netCredit : ℝ
  maxProfit : ℝ
  maxLoss : ℝ
  breakeven : ℝ
  returnOnRisk : ℝ
  annualizedYield : ℝ
  spreadWidth : ℝ
  profitProbability : ℝ
  greeks : Greeks
  optionDetails : OptionAnalysis
  daysToExpiry : ℕ

/-- `StrategyAnalyzer.analyze_bull_put_spread`. `none` models the empty dict:
either leg analysis empty, `short_strike ≤ long_strike`, or the one uncaught
division (`365/days` with `days = 0`, reached only when `max_loss > 0`). -/
noncomputable def analyze_bull_put_spread (Φ φ : ℝ → ℝ) (riskFreeRate stockPrice : ℝ)
    (putShortData putLongData : OptionContract) (daysToExpiry : ℕ) : Option SpreadAnalysis :=
  match analyze_option Φ φ riskFreeRate putShortData stockPrice daysToExpiry,
        analyze_option Φ φ riskFreeRate putLongData stockPrice daysToExpiry with
  | some shortAnalysis, some _longAnalysis =>
    let shortStrike := putShortData.strike
    let longStrike := putLongData.strike
    if shortStrike ≤ longStrike then none
    else
      let shortPremium := shortAnalysis.basicInfo.midPrice
      let longPremium := _longAnalysis.basicInfo.midPrice
      let netCredit := (shortPremium - longPremium) * 100
      let spreadWidth := (shortStrike - longStrike) * 100
      let maxProfit := netCredit
      let maxLoss := spreadWidth - netCredit
      let breakeven := shortStrike - netCredit / 100
      if 0 < maxLoss ∧ daysToExpiry = 0 then none
      else
        let returnOnRisk := if 0 < maxLoss then maxProfit / maxLoss * 100 else 0
        let annualizedYield :=
          if 0 < maxLoss then returnOnRisk * (365 / (daysToExpiry : ℝ)) else 0
        let currentIv := shortAnalysis.basicInfo.impliedVolatility
        let expectedMove := stockPrice * (currentIv / 100) * Real.sqrt ((daysToExpiry : ℝ) / 365)
        let distance := stockPrice - breakeven
        let profitProb :=
          if 0 < expectedMove then min 95 (max 5 (50 + distance / expectedMove * 30)) else 50
        some
          { stockPrice := stockPrice
            strike := shortStrike
            shortStrike := shortStrike
            longStrike := longStrike
            premium := netCredit / 100
            netCredit := netCredit
            maxProfit := maxProfit
            maxLoss := maxLoss
            breakeven := breakeven
            returnOnRisk := returnOnRisk
            annualizedYield := annualizedYield
            spreadWidth := spreadWidth
            profitProbability := profitProb
            greeks := shortAnalysis.greeks
            optionDetails := shortAnalysis
            daysToExpiry := daysToExpiry }
  | _, _ => none

/-- `StrategyAnalyzer.analyze_bear_call_spread`, symmetric to the bull put
spread with `long_strike ≤ short_strike` rejected. -/
noncomputable def analyze_bear_call_spread (Φ φ : ℝ → ℝ) (riskFreeRate stockPrice : ℝ)
    (callShortData callLongData : OptionContract) (daysToExpiry : ℕ) : Option SpreadAnalysis :=
  match analyze_option Φ φ riskFreeRate callShortData stockPrice daysToExpiry,
        analyze_option Φ φ riskFreeRate callLongData stockPrice daysToExpiry with
  | some shortAnalysis, some _longAnalysis =>
    let shortStrike := callShortData.strike
    let longStrike := callLongData.strike
    if longStrike ≤ shortStrike then none
    else
      let shortPremium := shortAnalysis.basicInfo.midPrice
      let longPremium := _longAnalysis.basicInfo.midPrice
      let netCredit := (shortPremium - longPremium) * 100
      let spreadWidth := (longStrike - shortStrike) * 100
      let maxProfit := netCredit
      let maxLoss := spreadWidth - netCredit
      let breakeven := shortStrike + netCredit / 100
      if 0 < maxLoss ∧ daysToExpiry = 0 then none
      else
        let returnOnRisk := if 0 < maxLoss then maxProfit / maxLoss * 100 else 0
        let annualizedYield :=
          if 0 < maxLoss then returnOnRisk * (365 / (daysToExpiry : ℝ)) else 0
        let currentIv := shortAnalysis.basicInfo.impliedVolatility
        let expectedMove := stockPrice * (currentIv / 100) * Real.sqrt ((daysToExpiry : ℝ) / 365)
        let distance := breakeven - stockPrice
        let profitProb :=
          if 0 < expectedMove then min 95 (max 5 (50 + distance / expectedMove * 30)) else 50
        some
          { stockPrice := stockPrice
            strike := shortStrike
            shortStrike := shortStrike
            longStrike := longStrike
            premium := netCredit / 100
            netCredit := netCredit
            maxProfit := maxProfit
            maxLoss := maxLoss
            breakeven := breakeven
            returnOnRisk := returnOnRisk
            annualizedYield := annualizedYield
            spreadWidth := spreadWidth
            profitProbability := profitProb
            greeks := shortAnalysis.greeks
            optionDetails := shortAnalysis
            daysToExpiry := daysToExpiry }
  | _, _ => none

/-- Claim C3: a put pair with `short_strike ≤ long_strike` makes
`analyze_bull_put_spread` return the empty record, and a call pair with
`long_strike ≤ short_strike` makes `analyze_bear_call_spread` return the
empty record — in both cases without an exception (the embedding is total;
`none` is the silently returned empty dict). -/
theorem c3_spread_strike_ordering (Φ φ : ℝ → ℝ) (riskFreeRate stockPrice : ℝ)
    (shortLeg longLeg : OptionContract) (days : ℕ) :
    (shortLeg.strike ≤ longLeg.strike →
      analyze_bull_put_spread Φ φ riskFreeRate stockPrice shortLeg longLeg days = none) ∧
    (longLeg.strike ≤ shortLeg.strike →
      analyze_bear_call_spread Φ φ riskFreeRate stockPrice shortLeg longLeg days = none) := by
  constructor
  · intro hle
    unfold analyze_bull_put_spread
    cases hA : analyze_option Φ φ riskFreeRate shortLeg stockPrice days with
    | none => rfl
    | some sA =>
      cases hB : analyze_option Φ φ riskFreeRate longLeg stockPrice days with
      | none => rfl
      | some lA => simp [hle]
  · intro hle
    unfold analyze_bear_call_spread
    cases hA : analyze_option Φ φ riskFreeRate shortLeg stockPrice days with
    | none => rfl
    | some sA =>
      cases hB : analyze_option Φ φ riskFreeRate longLeg stockPrice days with
      | none => rfl
      | some lA => simp [hle]

/-- A put leg used to instantiate the spread claims on closed inputs. -/
noncomputable def legWitness : OptionContract :=
  { strike := 97, lastPrice := 2, bid := 0, ask := 0, impliedVolatility := 1/4,
    volume := 0, openInterest := 0, side := .put }

/-- Claim C3, witness: equal strikes are rejected by both spreads. -/
theorem c3_witness :
    analyze_bull_put_spread cdfModel pdfModel 0 100 legWitness legWitness 30 = none ∧
    analyze_bear_call_spread cdfModel pdfModel 0 100 legWitness legWitness 30 = none :=
  ⟨(c3_spread_strike_ordering cdfModel pdfModel 0 100 legWitness legWitness 30).1 le_rfl,
   (c3_spread_strike_ordering cdfModel pdfModel 0 100 legWitness legWitness 30).2 le_rfl⟩

/-- Claim C9: for a bull put spread with short strike 95, long strike 90,
spot 100, 30 days to expiry and positive net credit
`(short mid − long mid)·100`, the returned record has
`max_loss = 500 − net_credit` and `breakeven = 95 − net_credit/100`. -/
theorem c9_bull_put_spread_values (Φ φ : ℝ → ℝ) (r : ℝ) (ps pl : OptionContract)
    (hps : ps.strike = 95) (hpl : pl.strike = 90) (hside₁ : ps.side = .put)
    (hside₂ : pl.side = .put) (hcredit : 0 < (midPriceOf ps - midPriceOf pl) * 100) :
    (analyze_bull_put_spread Φ φ r 100 ps pl 30).map SpreadAnalysis.maxLoss =
      some (500 - (midPriceOf ps - midPriceOf pl) * 100) ∧
    (analyze_bull_put_spread Φ φ r 100 ps pl 30).map SpreadAnalysis.breakeven =
      some (95 - (midPriceOf ps - midPriceOf pl) * 100 / 100) := by
  have hfailS : ¬ ((ps.side = OptionSide.call ∧ ps.strike = 0) ∨
      (ps.side = OptionSide.put ∧ (100:ℝ) = 0) ∨
      (0 < midPriceOf ps ∧ ((30:ℕ) = 0 ∨ ps.strike = 0))) := by
    simp [hside₁, hps]
  have hfailL : ¬ ((pl.side = OptionSide.call ∧ pl.strike = 0) ∨
      (pl.side = OptionSide.put ∧ (100:ℝ) = 0) ∨
      (0 < midPriceOf pl ∧ ((30:ℕ) = 0 ∨ pl.strike = 0))) := by
    simp [hside₂, hpl]
  simp only [analyze_bull_put_spread, analyze_option, if_neg hfailS, if_neg hfailL]
  rw [hps, hpl]
  rw [if_neg (by norm_num : ¬ (95:ℝ) ≤ 90)]
  rw [if_neg (by norm_num :
    ¬ (0 < ((95:ℝ) - 90) * 100 - (midPriceOf ps - midPriceOf pl) * 100 ∧ (30:ℕ) = 0))]
  constructor <;> simp <;> ring

/-- The long put leg for the C9 witness, with mid price 1. -/
noncomputable def legWitnessLong : OptionContract :=
  { strike := 90, lastPrice := 1, bid := 0, ask := 0, impliedVolatility := 3/10,
    volume := 0, openInterest := 0, side := .put }

/-- The short put leg for the C9 witness, with mid price 3. -/
noncomputable def legWitnessShort : OptionContract :=
  { strike := 95, lastPrice := 3, bid := 0, ask := 0, impliedVolatility := 3/10,
    volume := 0, openInterest := 0, side := .put }

/-- Claim C9, witness at concrete legs (net credit 200). -/
theorem c9_witness :
    (analyze_bull_put_spread cdfModel pdfModel 0 100 legWitnessShort legWitnessLong 30).map
        SpreadAnalysis.maxLoss =
      some (500 - (midPriceOf legWitnessShort - midPriceOf legWitnessLong) * 100) ∧
    (analyze_bull_put_spread cdfModel pdfModel 0 100 legWitnessShort legWitnessLong 30).map
        SpreadAnalysis.breakeven =
      some (95 - (midPriceOf legWitnessShort - midPriceOf legWitnessLong) * 100 / 100) :=
  c9_bull_put_spread_values cdfModel pdfModel 0 legWitnessShort legWitnessLong rfl rfl rfl rfl
    (by norm_num [midPriceOf, legWitnessShort, legWitnessLong])

/-! ## `StrategyAnalyzer.rank_selling_opportunities` (strategies.py)

The scoring arithmetic is rational, so this part is modelled over `ℚ`.
Optional sub-records mirror the dict-membership tests (`'returns' in opp`,
`'probabilities' in opp`, `'option_details'/'liquidity'`, `'greeks'`); the
inner `.get` defaults of the source coincide with absent-key behaviour and
are modelled by the field value itself. -/

/-- The `liquidity` fields read by the ranker. -/
structure OppLiquidity where
  volume : ℚ
  openInterest : ℚ
  bidAskSpreadPct : ℚ

/-- The `returns` fields read by the ranker; `maxLoss = none` models the
float `inf`. -/
structure OppReturns where
  annualizedYield : ℚ
  maxProfit : ℚ
  maxLoss : Option ℚ

/-- An opportunity record as consumed by `rank_selling_opportunities`. -/
structure Opportunity where
  returns : Option OppReturns
  probProfitShort : Option ℚ
  liquidity : Option OppLiquidity
  delta : Option ℚ

/-- The additive score computed inside `rank_selling_opportunities`. -/
def opportunityScore (o : Opportunity) : ℚ :=
  match o.returns with
  | none => 0
  | some r =>
    let annualizedScore := if 0 < r.annualizedYield then min 30 (r.annualizedYield * 2) else 0
    let probScore :=
      match o.probProfitShort with
      | some p => min 25 (p * 0.25)
      | none => 0
    let liquidityScore :=
      match o.liquidity with
      | some l =>
        (if 100 ≤ l.volume ∧ 500 ≤ l.openInterest then 10
         else if 50 ≤ l.volume ∧ 200 ≤ l.openInterest then 5 else 0) +
        (if l.bidAskSpreadPct < 5 then 10 else if l.bidAskSpreadPct < 10 then 5 else 0)
      | none => 0
    let riskScore :=
      match r.maxLoss with
      | some ml => if 0 < ml then min 15 (r.maxProfit / ml * 30) else 0
      | none => 0
    let deltaScore :=
      match o.delta with
      | some d => if 0.15 ≤ |d| ∧ |d| ≤ 0.35 then 10
                  else if 0.1 ≤ |d| ∧ |d| ≤ 0.5 then 5 else 0
      | none => 0
    annualizedScore + probScore + liquidityScore + riskScore + deltaScore

/-- An opportunity together with the `score` key written into its copy. -/
structure ScoredOpportunity where
  opp : Opportunity
  score : ℚ

/-- Descending-by-score order used for the final sort. -/
def scoreGE (a b : ScoredOpportunity) : Prop := b.score ≤ a.score

/-- Stable insertion into a descending list: the new element goes before the
first element whose score is not larger. -/
def insertByScore (x : ScoredOpportunity) : List ScoredOpportunity → List ScoredOpportunity
  | [] => [x]
  | y :: ys => if y.score ≤ x.score then x :: y :: ys else y :: insertByScore x ys

/-- Stable descending sort: the unique stable sort, hence a faithful model of
Python's `list.sort(key=..., reverse=True)`. -/
def sortByScoreDesc : List ScoredOpportunity → List ScoredOpportunity
  | [] => []
  | x :: xs => insertByScore x (sortByScoreDesc xs)

/-- `StrategyAnalyzer.rank_selling_opportunities`: attach scores, then sort
by score descending (stable). -/
def rank_selling_opportunities (opps : List Opportunity) : List ScoredOpportunity :=
  sortByScoreDesc (opps.map fun o => ScoredOpportunity.mk o (opportunityScore o))

theorem mem_insertByScore (x z : ScoredOpportunity) (l : List ScoredOpportunity) :
    z ∈ insertByScore x l ↔ z = x ∨ z ∈ l := by
  induction l with
  | nil => simp [insertByScore]
  | cons y ys ih =>
    unfold insertByScore
    by_cases h : y.score ≤ x.score
    · simp [h]
    · simp [h, ih]
      tauto

theorem pairwise_insertByScore (x : ScoredOpportunity) (l : List ScoredOpportunity)
    (hl : l.Pairwise scoreGE) : (insertByScore x l).Pairwise scoreGE := by
  induction l with
  | nil => simp [insertByScore, scoreGE]
  | cons y ys ih =>
    rw [List.pairwise_cons] at hl
    obtain ⟨hy, hys⟩ := hl
    unfold insertByScore
    by_cases h : y.score ≤ x.score
    · rw [if_pos h]
      refine List.Pairwise.cons ?_ (List.Pairwise.cons hy hys)
      intro z hz
      rcases List.mem_cons.mp hz with rfl | hz
      · exact h
      · exact le_trans (hy z hz) h
    · rw [if_neg h]
      refine List.Pairwise.cons ?_ (ih hys)
      intro z hz
      rcases (mem_insertByScore x z ys).mp hz with rfl | hz
      · exact (not_le.mp h).le
      · exact hy z hz

theorem pairwise_sortByScoreDesc (l : List ScoredOpportunity) :
    (sortByScoreDesc l).Pairwise scoreGE := by
  induction l with
  | nil => simp [sortByScoreDesc]
  | cons x xs ih => exact pairwise_insertByScore x _ ih

theorem mem_sortByScoreDesc (z : ScoredOpportunity) (l : List ScoredOpportunity) :
    z ∈ sortByScoreDesc l ↔ z ∈ l := by
  induction l with
  | nil => simp [sortByScoreDesc]
  | cons x xs ih => simp [sortByScoreDesc, mem_insertByScore, ih]

theorem filter_insertByScore (q : ℚ) (x : ScoredOpportunity) (l : List ScoredOpportunity) :
    (insertByScore x l).filter (fun s => decide (s.score = q)) =
      if x.score = q then x :: l.filter (fun s => decide (s.score = q))
      else l.filter (fun s => decide (s.score = q)) := by
  induction l with
  | nil => by_cases h : x.score = q <;> simp [insertByScore, h]
  | cons y ys ih =>
    unfold insertByScore
    by_cases h : y.score ≤ x.score
    · rw [if_pos h]
      by_cases hx : x.score = q <;> simp [List.filter_cons, hx]
    · rw [if_neg h]
      by_cases hx : x.score = q
      · have hy : ¬ y.score = q := fun hyq => h (le_of_eq (hyq.trans hx.symm))
        simp [List.filter_cons, hx, hy, ih]
      · simp [List.filter_cons, hx, ih]

theorem filter_sortByScoreDesc (q : ℚ) (l : List ScoredOpportunity) :
    (sortByScoreDesc l).filter (fun s => decide (s.score = q)) =
      l.filter (fun s => decide (s.score = q)) := by
  induction l with
  | nil => rfl
  | cons x xs ih =>
    rw [sortByScoreDesc, filter_insertByScore, List.filter_cons]
    by_cases h : x.score = q <;> simp [h, ih]

theorem opportunityScore_le_100 (o : Opportunity) : opportunityScore o ≤ 100 := by
  unfold opportunityScore
  rcases hr : o.returns with _ | r
  · norm_num
  simp only
  have h1 : (if 0 < r.annualizedYield then min 30 (r.annualizedYield * 2) else (0:ℚ)) ≤ 30 := by
    split
    · exact min_le_left _ _
    · norm_num
  have h2 : (match o.probProfitShort with
      | some p => min 25 (p * 0.25)
      | none => (0:ℚ)) ≤ 25 := by
    rcases o.probProfitShort with _ | p
    · norm_num
    · exact min_le_left _ _
  have h3 : (match o.liquidity with
      | some l =>
        (if 100 ≤ l.volume ∧ 500 ≤ l.openInterest then (10:ℚ)
         else if 50 ≤ l.volume ∧ 200 ≤ l.openInterest then 5 else 0) +
        (if l.bidAskSpreadPct < 5 then (10:ℚ) else if l.bidAskSpreadPct < 10 then 5 else 0)
      | none => (0:ℚ)) ≤ 20 := by
    rcases o.liquidity with _ | l
    · norm_num
    · simp only
      split_ifs <;> norm_num
  have h4 : (match r.maxLoss with
      | some ml => if 0 < ml then min 15 (r.maxProfit / ml * 30) else 0
      | none => (0:ℚ)) ≤ 15 := by
    rcases r.maxLoss with _ | ml
    · norm_num
    · simp only
      split
      · exact min_le_left _ _
      · norm_num
  have h5 : (match o.delta with
      | some d => if 0.15 ≤ |d| ∧ |d| ≤ 0.35 then (10:ℚ)
                  else if 0.1 ≤ |d| ∧ |d| ≤ 0.5 then 5 else 0
      | none => (0:ℚ)) ≤ 10 := by
    rcases o.delta with _ | d
    · norm_num
    · simp only
      split <;> [norm_num; split <;> norm_num]
  linarith

theorem opportunityScore_nonneg (o : Opportunity)
    (hp : ∀ p, o.probProfitShort = some p → 0 ≤ p)
    (hm : ∀ r, o.returns = some r → 0 ≤ r.maxProfit) :
    0 ≤ opportunityScore o := by
  unfold opportunityScore
  rcases hr : o.returns with _ | r
  · norm_num
  simp only
  have hmp : 0 ≤ r.maxProfit := hm r hr
  have h1 : (0:ℚ) ≤ if 0 < r.annualizedYield then min 30 (r.annualizedYield * 2) else 0 := by
    split
    · refine le_min (by norm_num) (by linarith)
    · norm_num
  have h2 : (0:ℚ) ≤ (match o.probProfitShort with
      | some p => min 25 (p * 0.25)
      | none => (0:ℚ)) := by
    rcases hpp : o.probProfitShort with _ | p
    · norm_num
    · have := hp p hpp
      exact le_min (by norm_num) (by linarith)
  have h3 : (0:ℚ) ≤ (match o.liquidity with
      | some l =>
        (if 100 ≤ l.volume ∧ 500 ≤ l.openInterest then (10:ℚ)
         else if 50 ≤ l.volume ∧ 200 ≤ l.openInterest then 5 else 0) +
        (if l.bidAskSpreadPct < 5 then (10:ℚ) else if l.bidAskSpreadPct < 10 then 5 else 0)
      | none => (0:ℚ)) := by
    rcases o.liquidity with _ | l
    · norm_num
    · simp only
      split_ifs <;> norm_num
  have h4 : (0:ℚ) ≤ (match r.maxLoss with
      | some ml => if 0 < ml then min 15 (r.maxProfit / ml * 30) else 0
      | none => (0:ℚ)) := by
    rcases r.maxLoss with _ | ml
    · norm_num
    · simp only
      split
      · refine le_min (by norm_num) ?_
        have hml : (0:ℚ) < ml := by assumption
        positivity
      · norm_num
  have h5 : (0:ℚ) ≤ (match o.delta with
      | some d => if 0.15 ≤ |d| ∧ |d| ≤ 0.35 then (10:ℚ)
                  else if 0.1 ≤ |d| ∧ |d| ≤ 0.5 then 5 else 0
      | none => (0:ℚ)) := by
    rcases o.delta with _ | d
    · norm_num
    · simp only
      split <;> [norm_num; split <;> norm_num]
  linarith


/-- Modelled from the spec: the annualized-return component (≤30, 2×return). -/
def annualizedComponent (y : ℚ) : ℚ := if 0 < y then min 30 (y * 2) else 0

/-- Modelled from the spec: the profit-probability component (≤25, 0.25×prob). -/
def probabilityComponent (p : ℚ) : ℚ := min 25 (p * 0.25)

/-- Modelled from the spec: the liquidity component (≤20, volume/OI tiering
plus spread tiering). -/
def liquidityComponent (l : OppLiquidity) : ℚ :=
  (if 100 ≤ l.volume ∧ 500 ≤ l.openInterest then 10
   else if 50 ≤ l.volume ∧ 200 ≤ l.openInterest then 5 else 0) +
  (if l.bidAskSpreadPct < 5 then 10 else if l.bidAskSpreadPct < 10 then 5 else 0)

/-- Modelled from the spec: the risk/reward component (≤15,
30×(max_profit/max_loss), only when max_loss is finite and positive). -/
def riskRewardComponent (maxProfit : ℚ) (maxLoss : Option ℚ) : ℚ :=
  match maxLoss with
  | some ml => if 0 < ml then min 15 (maxProfit / ml * 30) else 0
  | none => 0

/-- Modelled from the spec: the delta-centering component (≤10, the full 10
exactly on |delta| ∈ [0.15, 0.35]). -/
def deltaComponent (d : ℚ) : ℚ :=
  if 0.15 ≤ |d| ∧ |d| ≤ 0.35 then 10 else if 0.1 ≤ |d| ∧ |d| ≤ 0.5 then 5 else 0

/-- Modelled from the spec: the score as the sum of the five independently
capped components. -/
def opportunityScoreSpec (o : Opportunity) : ℚ :=
  match o.returns with
  | none => 0
  | some r =>
    annualizedComponent r.annualizedYield +
    (o.probProfitShort.map probabilityComponent).getD 0 +
    (o.liquidity.map liquidityComponent).getD 0 +
    riskRewardComponent r.maxProfit r.maxLoss +
    (o.delta.map deltaComponent).getD 0

/-- Claim C4 (amended): the ranker assigns each record the additive score of
five independently capped components (≤30 annualized-return, ≤25
profit-probability, ≤20 liquidity, ≤15 risk/reward when `max_loss` is finite
and positive, ≤10 delta-centering with the full 10 exactly on
`|delta| ∈ [0.15, 0.35]`), the output is sorted in descending score with
equal scores keeping input order (stable), and every score is at most 100;
the lower bound 0 holds whenever the record's probability field and
`max_profit` are nonnegative (but not for arbitrary records). -/
theorem c4_rank_scoring_and_order (opps : List Opportunity) :
    (∀ s ∈ rank_selling_opportunities opps, s.score = opportunityScore s.opp) ∧
    (rank_selling_opportunities opps).Pairwise scoreGE ∧
    (∀ q : ℚ, (rank_selling_opportunities opps).filter (fun s => decide (s.score = q)) =
      (opps.map fun o => ScoredOpportunity.mk o (opportunityScore o)).filter
        (fun s => decide (s.score = q))) ∧
    (∀ s ∈ rank_selling_opportunities opps, s.score ≤ 100) ∧
    (∀ s ∈ rank_selling_opportunities opps,
      (∀ p, s.opp.probProfitShort = some p → 0 ≤ p) →
      (∀ r, s.opp.returns = some r → 0 ≤ r.maxProfit) → 0 ≤ s.score) ∧
    (∀ o : Opportunity, opportunityScore o = opportunityScoreSpec o) ∧
    (∀ y : ℚ, annualizedComponent y ≤ 30) ∧
    (∀ p : ℚ, probabilityComponent p ≤ 25) ∧
    (∀ l : OppLiquidity, liquidityComponent l ≤ 20) ∧
    (∀ (mp : ℚ) (ml : Option ℚ), riskRewardComponent mp ml ≤ 15) ∧
    (∀ d : ℚ, deltaComponent d ≤ 10 ∧
      (deltaComponent d = 10 ↔ 0.15 ≤ |d| ∧ |d| ≤ 0.35)) := by
  have hmem : ∀ s ∈ rank_selling_opportunities opps, s.score = opportunityScore s.opp := by
    intro s hs
    rw [rank_selling_opportunities, mem_sortByScoreDesc, List.mem_map] at hs
    obtain ⟨o, _, rfl⟩ := hs
    rfl
  refine ⟨hmem, pairwise_sortByScoreDesc _, fun q => filter_sortByScoreDesc q _,
    ?_, ?_, ?_, ?_, ?_, ?_, ?_, ?_⟩
  · intro s hs
    rw [hmem s hs]
    exact opportunityScore_le_100 s.opp
  · intro s hs hp hm
    rw [hmem s hs]
    exact opportunityScore_nonneg s.opp hp hm
  · intro o
    obtain ⟨ret, prob, liq, del⟩ := o
    rcases ret with _ | r <;> rcases prob with _ | p <;> rcases liq with _ | l <;>
      rcases del with _ | d <;> rfl
  · intro y
    unfold annualizedComponent
    split
    · exact min_le_left _ _
    · norm_num
  · intro p
    exact min_le_left _ _
  · intro l
    unfold liquidityComponent
    split_ifs <;> norm_num
  · intro mp ml
    rcases ml with _ | m
    · norm_num [riskRewardComponent]
    · simp only [riskRewardComponent]
      split
      · exact min_le_left _ _
      · norm_num
  · intro d
    unfold deltaComponent
    constructor
    · split_ifs <;> norm_num
    · split_ifs with h1 h2
      · simp [h1]
      · constructor
        · intro he
          norm_num at he
        · intro hb
          exact absurd hb h1
      · constructor
        · intro he
          norm_num at he
        · intro hb
          exact absurd hb h1

/-- An adversarial record: `returns` present, probability −200. -/
def badOpportunity : Opportunity :=
  { returns := some { annualizedYield := 0, maxProfit := 0, maxLoss := none }
    probProfitShort := some (-200)
    liquidity := none
    delta := none }

/-- Claim C4, counterexample: the ranked score of `badOpportunity` is −50,
outside the claimed range [0,100]. -/
theorem c4_counterexample :
    (rank_selling_opportunities [badOpportunity]).map ScoredOpportunity.score = [(-50 : ℚ)] ∧
    ¬ (0 ≤ (-50 : ℚ)) := by
  constructor
  · simp only [rank_selling_opportunities, List.map_cons, List.map_nil, sortByScoreDesc,
      insertByScore]
    norm_num [opportunityScore, badOpportunity, min_def]
  · norm_num

/-- A healthy record scoring near the ceiling. -/
def goodOpportunity : Opportunity :=
  { returns := some { annualizedYield := 20, maxProfit := 50, maxLoss := some 100 }
    probProfitShort := some 80
    liquidity := some { volume := 1000, openInterest := 5000, bidAskSpreadPct := 1 }
    delta := some (1/5) }

/-- Claim C4, witness: the amended theorem instantiated on a concrete list. -/
theorem c4_witness :
    (rank_selling_opportunities [goodOpportunity, badOpportunity]).Pairwise scoreGE ∧
    (rank_selling_opportunities [goodOpportunity, badOpportunity]).filter
        (fun s => decide (s.score = 100)) =
      ([goodOpportunity, badOpportunity].map fun o =>
        ScoredOpportunity.mk o (opportunityScore o)).filter
        (fun s => decide (s.score = 100)) :=
  ⟨(c4_rank_scoring_and_order [goodOpportunity, badOpportunity]).2.1,
   (c4_rank_scoring_and_order [goodOpportunity, badOpportunity]).2.2.1 100⟩

/-! ## `RiskManager` (src/risk_management/risk_manager.py), modelled over ℚ -/

/-- Risk tiers returned by `RiskMonitor.assess_risk_level` (the Chinese
strings 低风险 / 中等风险 / 高风险 / 极高风险). -/
inductive RiskLevel where
  | low
  | medium
  | high
  | extreme
deriving DecidableEq, Repr

/-- The recommendation actions of `RiskManager._generate_trade_recommendation`. -/
inductive TradeAction where
  | AVOID
  | CAUTION
  | STRONG_BUY
  | BUY
  | HOLD
deriving DecidableEq, Repr

/-- The fields of the position-risk dict read by the recommendation logic;
`riskRewardRatio = none` models the float `inf` (zero/negative max profit,
or a missing key whose `.get` default is `inf`). -/
structure PositionRisk where
  capitalAtRiskPct : ℚ
  riskRewardRatio : Option ℚ

/-- `inf`-aware strict comparison `risk_reward_ratio > c`. -/
def rrGT (rr : Option ℚ) (c : ℚ) : Bool :=
  match rr with
  | none => true
  | some v => c < v

/-- `inf`-aware comparison `risk_reward_ratio ≤ c`. -/
def rrLE (rr : Option ℚ) (c : ℚ) : Bool :=
  match rr with
  | none => false
  | some v => v ≤ c

/-- `RiskMonitor.assess_risk_level`. -/
def assess_risk_level (pr : PositionRisk) : RiskLevel :=
  if pr.capitalAtRiskPct ≤ 1 then .low
  else if pr.capitalAtRiskPct ≤ 3 then .medium
  else if pr.capitalAtRiskPct ≤ 5 then .high
  else .extreme

/-- `RiskManager._generate_trade_recommendation`, taking the risk level
computed by `assess_risk_level` exactly as `analyze_trade_risk` wires it. -/
def generate_trade_recommendation (pr : PositionRisk) (riskLevel : RiskLevel) : TradeAction :=
  if 5 < pr.capitalAtRiskPct then .AVOID
  else if 3 < pr.capitalAtRiskPct then .CAUTION
  else if rrGT pr.riskRewardRatio 4 then .CAUTION
  else if riskLevel = .low ∧ rrLE pr.riskRewardRatio 2 then .STRONG_BUY
  else if riskLevel = .medium ∧ rrLE pr.riskRewardRatio 3 then .BUY
  else .HOLD

/-- Modelled from the spec: the claimed first-match rule list, with the risk
tiers spelled out numerically — low tier ⟺ `capital_at_risk_pct ≤ 1`,
medium tier ⟺ `1 < capital_at_risk_pct ≤ 3` (the bands of
`assess_risk_level`). -/
def recommendationSpec (pct : ℚ) (rr : Option ℚ) : TradeAction :=
  if 5 < pct then .AVOID
  else if 3 < pct then .CAUTION
  else if rrGT rr 4 then .CAUTION
  else if pct ≤ 1 ∧ rrLE rr 2 then .STRONG_BUY
  else if 1 < pct ∧ pct ≤ 3 ∧ rrLE rr 3 then .BUY
  else .HOLD

/-- Claim C5: the recommendation produced by the code (risk level from
`assess_risk_level`, then `_generate_trade_recommendation`) equals the
claimed first-match rule list. -/
theorem c5_recommendation_rules (pr : PositionRisk) :
    generate_trade_recommendation pr (assess_risk_level pr) =
      recommendationSpec pr.capitalAtRiskPct pr.riskRewardRatio := by
  unfold generate_trade_recommendation recommendationSpec assess_risk_level
  split_ifs <;> simp_all <;> linarith

/-! ## `PositionSizer.calculate_optimal_size` and
`RiskCalculator._calculate_margin_requirement` -/

/-- The strategy-analysis fields read by the margin and sizing code;
`returnsMaxLoss = none` models the float `inf`. -/
structure StrategyAnalysis where
  strategyType : String
  stockPrice : ℚ
  strike : ℚ
  putStrike : ℚ
  callStrike : ℚ
  wingWidth : ℚ
  returnsMaxLoss : Option ℚ

/-- `RiskCalculator._calculate_margin_requirement`. -/
def calculate_margin_requirement (sa : StrategyAnalysis) (positionSize : ℚ) : ℚ :=
  if sa.strategyType = "covered_call" then sa.stockPrice * 100 * positionSize
  else if sa.strategyType = "cash_secured_put" then sa.strike * 100 * positionSize
  else if sa.strategyType = "short_strangle" then
    max (sa.putStrike * 100 * 0.2) (sa.stockPrice * 100 * 0.2) * positionSize
  else if sa.strategyType = "iron_condor" then sa.wingWidth * 100 * positionSize
  else sa.stockPrice * 100 * 0.2 * positionSize

/-- Python `int()` of a float: truncation toward zero. -/
def pyInt (q : ℚ) : ℤ := if 0 ≤ q then ⌊q⌋ else ⌈q⌉

/-- `PositionSizer.calculate_optimal_size` (the `recommended_size` field),
with the default `max_risk_per_trade = 0.02`. -/
def calculate_optimal_size (sa : StrategyAnalysis) (availableCapital : ℚ) : ℤ :=
  match sa.returnsMaxLoss with
  | none => 0
  | some maxLoss =>
    if maxLoss ≤ 0 then 0
    else
      let maxRiskAmount := availableCapital * 0.02
      let riskBasedSize := pyInt (maxRiskAmount / maxLoss)
      let marginPerContract := calculate_margin_requirement sa 1
      let marginBasedSize :=
        if 0 < marginPerContract then pyInt (availableCapital * 0.5 / marginPerContract) else 0
      max 0 (min (min riskBasedSize marginBasedSize) 10)

/-- Claim C6: with finite positive max loss, positive per-contract margin and
positive capital, the recommended size is
`min(⌊0.02·capital/max_loss⌋, ⌊0.5·capital/margin⌋, 10)`; with `max_loss ≤ 0`
or infinite max loss it is 0. -/
theorem c6_optimal_size :
    (∀ (sa : StrategyAnalysis) (capital maxLoss : ℚ),
      sa.returnsMaxLoss = some maxLoss → 0 < maxLoss →
      0 < calculate_margin_requirement sa 1 → 0 < capital →
      calculate_optimal_size sa capital =
        min (min ⌊capital * 0.02 / maxLoss⌋
          ⌊capital * 0.5 / calculate_margin_requirement sa 1⌋) 10) ∧
    (∀ (sa : StrategyAnalysis) (capital : ℚ),
      (sa.returnsMaxLoss = none ∨ ∃ m, sa.returnsMaxLoss = some m ∧ m ≤ 0) →
      calculate_optimal_size sa capital = 0) := by
  constructor
  · intro sa capital maxLoss hml h₁ h₂ h₃
    have hnle : ¬ maxLoss ≤ 0 := not_le.mpr h₁
    have e₁ : pyInt (capital * 0.02 / maxLoss) = ⌊capital * 0.02 / maxLoss⌋ := by
      unfold pyInt
      rw [if_pos (by positivity)]
    have e₂ : pyInt (capital * 0.5 / calculate_margin_requirement sa 1) =
        ⌊capital * 0.5 / calculate_margin_requirement sa 1⌋ := by
      unfold pyInt
      rw [if_pos (by positivity)]
    have hfloor : (0:ℤ) ≤ min (min ⌊capital * 0.02 / maxLoss⌋
        ⌊capital * 0.5 / calculate_margin_requirement sa 1⌋) 10 :=
      le_min (le_min (Int.floor_nonneg.mpr (by positivity))
        (Int.floor_nonneg.mpr (by positivity))) (by norm_num)
    simp only [calculate_optimal_size, hml, if_neg hnle, if_pos h₂, e₁, e₂]
    exact max_eq_right hfloor
  · intro sa capital h
    unfold calculate_optimal_size
    rcases h with h | ⟨m, hm, hm0⟩
    · rw [h]
    · rw [hm]
      simp [hm0]

/-- A cash-secured-put strategy record for the C6 witness. -/
def cspStrategy : StrategyAnalysis :=
  { strategyType := "cash_secured_put", stockPrice := 100, strike := 50, putStrike := 0,
    callStrike := 0, wingWidth := 0, returnsMaxLoss := some 400 }

/-- A short-strangle record with unbounded loss for the C6 witness. -/
def strangleStrategy : StrategyAnalysis :=
  { strategyType := "short_strangle", stockPrice := 100, strike := 0, putStrike := 95,
    callStrike := 105, wingWidth := 0, returnsMaxLoss := none }

/-- Claim C6, witness: both branches at concrete strategies. -/
theorem c6_witness :
    calculate_optimal_size cspStrategy 100000 =
      min (min ⌊(100000 : ℚ) * 0.02 / 400⌋
        ⌊(100000 : ℚ) * 0.5 / calculate_margin_requirement cspStrategy 1⌋) 10 ∧
    calculate_optimal_size strangleStrategy 100000 = 0 :=
  ⟨(c6_optimal_size.1 cspStrategy 100000 400 rfl (by norm_num)
      (by simp [calculate_margin_requirement, cspStrategy]) (by norm_num)),
   c6_optimal_size.2 strangleStrategy 100000 (Or.inl rfl)⟩

/-! ## `PositionsDB.update_wheel_state` (src/utils/persistence.py) -/

/-- The key set of `PositionsDB.WHEEL_STATES`. -/
def WHEEL_STATES : List String := ["sell_put", "assigned", "sell_call", "called_away", "idle"]

/-- `PositionsDB.update_wheel_state`. The positions table is modelled as a
list of `(id, wheel_state)` rows; the SQL `UPDATE ... WHERE id = ?` rewrites
the matching rows (the `updated_at` timestamp column is not modelled). The
returned flag is the Python return value. -/
def update_wheel_state (db : List (ℕ × String)) (positionId : ℕ) (newState : String) :
    Bool × List (ℕ × String) :=
  if newState ∈ WHEEL_STATES then
    (true, db.map fun row => if row.1 = positionId then (row.1, newState) else row)
  else
    (false, db)

/-- Claim C7: a target state outside {idle, sell_put, assigned, sell_call,
called_away} is rejected (`False`) with the stored rows unchanged; any target
state inside the vocabulary is accepted (`True`) regardless of the current
state of any row, the matching row being overwritten with the target state. -/
theorem c7_wheel_state_validation (db : List (ℕ × String)) (pid : ℕ) (s : String) :
    (s ∉ (["idle", "sell_put", "assigned", "sell_call", "called_away"] : List String) →
      update_wheel_state db pid s = (false, db)) ∧
    (s ∈ (["idle", "sell_put", "assigned", "sell_call", "called_away"] : List String) →
      (update_wheel_state db pid s).1 = true ∧
      (update_wheel_state db pid s).2 =
        db.map fun row => if row.1 = pid then (row.1, s) else row) := by
  have hvocab : s ∈ WHEEL_STATES ↔
      s ∈ (["idle", "sell_put", "assigned", "sell_call", "called_away"] : List String) := by
    simp [WHEEL_STATES]
    tauto
  constructor
  · intro hs
    unfold update_wheel_state
    rw [if_neg (fun hmem => hs (hvocab.mp hmem))]
  · intro hs
    unfold update_wheel_state
    rw [if_pos (hvocab.mpr hs)]
    exact ⟨rfl, rfl⟩

/-- Claim C7, witness: a junk state is rejected without mutation; a valid
state is accepted from an arbitrary current state. -/
theorem c7_witness :
    update_wheel_state [(1, "idle")] 1 "banana" = (false, [(1, "idle")]) ∧
    (update_wheel_state [(1, "called_away")] 1 "sell_call").1 = true :=
  ⟨(c7_wheel_state_validation [(1, "idle")] 1 "banana").1 (by decide),
   ((c7_wheel_state_validation [(1, "called_away")] 1 "sell_call").2 (by decide)).1⟩
